import Mathlib

/-!
Verification of the calyx authentication core: a shallow embedding of the
session authority (src/lib/db/sessions.ts), the API-token authority
(src/lib/auth/api-tokens/index.ts, src/lib/db/api-tokens.ts), the token
codec (src/lib/auth/api-tokens/token-encryption.ts) and the auth context
resolver (src/lib/auth/api-tokens/middleware.ts).

Modelling conventions:
- Timestamps (ISO strings / Date values in the source) are Nat milliseconds
  since the epoch; Date comparison and arithmetic translate directly.
- The external store (supabase tables) is an explicit list of records; each
  db call becomes a pure function from the store to a result and a new store.
- bcrypt hashing and verification are library primitives; they enter the
  model as an abstract verify function parameter.
- AES-256-GCM is a library primitive; it enters the model as an abstract
  AEADCipher parameter together with its call contract (IsPerfectAEAD).
- Throwing code returns Except/Option; a thrown error is an error value.
- The source field named after the Lean keyword for token buckets
  (the visible bucket field of api_tokens) is rendered as pfx.
-/

-- ===============================
-- Session authority data model (src/lib/auth/types.ts)
-- ===============================

/-- User record (src/lib/auth/types.ts User). -/
structure User where
  id : String
  email : String
  name : String
  created_at : Nat
  url_token : String
deriving DecidableEq, Repr

/-- Session record (src/lib/auth/types.ts Session); device_info is kept as an
plain serialized string. fresh is false at rest and only set on the object
returned by validateSession, mirroring the optional field of the source. -/
structure SessionRec where
  id : String
  user_id : String
  token : String
  expires_at : Nat
  created_at : Nat
  ip_address : Option String
  device_info : Option String
  last_activity : Nat
  fresh : Bool
deriving DecidableEq, Repr

/-- 30 days in milliseconds (src/lib/auth/types.ts SESSION_EXPIRES_IN). -/
def SESSION_EXPIRES_IN : Nat := 30 * 24 * 60 * 60 * 1000

/-- Refresh when less than half the TTL remains (src/lib/auth/types.ts). -/
def SESSION_REFRESH_THRESHOLD : Nat := SESSION_EXPIRES_IN / 2

/-- Per-user session cap (src/lib/auth/types.ts MAX_SESSIONS_PER_USER). -/
def MAX_SESSIONS_PER_USER : Nat := 5

/-- now + fixed TTL (src/lib/auth/utils.ts calculateSessionExpiry). -/
def calculateSessionExpiry (now : Nat) : Nat := now + SESSION_EXPIRES_IN

/-- Result of validateSession (src/lib/auth/types.ts SessionValidationResult). -/
structure SessionValidationResult where
  user : Option User
  session : Option SessionRec
deriving DecidableEq, Repr

-- ===============================
-- Session authority operations (src/lib/db/sessions.ts)
-- ===============================

/-- deleteSession: delete every session row whose token matches. -/
def deleteSession (token : String) (store : List SessionRec) : List SessionRec :=
  store.filter (fun s => ¬ s.token = token)

/-- validateSession (src/lib/db/sessions.ts): exact token lookup, eager
deletion when expired, sliding extension when under the refresh threshold.
Returns the result together with the store after any write.  The select
joins the users row of the session; that join is the find? over users. -/
def validateSession (token : String) (now : Nat) (users : List User)
    (store : List SessionRec) : SessionValidationResult × List SessionRec :=
  if token = "" then (⟨none, none⟩, store)
  else
    match store.find? (fun s => s.token = token) with
    | none => (⟨none, none⟩, store)
    | some data =>
      let user := users.find? (fun u => u.id = data.user_id)
      if data.expires_at ≤ now then
        (⟨none, none⟩, deleteSession token store)
      else
        if data.expires_at - now < SESSION_REFRESH_THRESHOLD then
          let newExpiresAt := calculateSessionExpiry now
          (⟨user, some { data with expires_at := newExpiresAt, fresh := true }⟩,
           store.map (fun s =>
             if s.token = token then { s with expires_at := newExpiresAt } else s))
        else
          (⟨user, some { data with fresh := false }⟩, store)

/-- Most-recently-active-first order used by limitUserSessions. -/
def laOrder (a b : SessionRec) : Prop := b.last_activity ≤ a.last_activity

instance : DecidableRel laOrder := fun a b =>
  inferInstanceAs (Decidable (b.last_activity ≤ a.last_activity))

instance : IsTotal SessionRec laOrder :=
  ⟨fun a b => Or.symm (Nat.le_total a.last_activity b.last_activity)⟩

instance : IsTrans SessionRec laOrder :=
  ⟨fun _ _ _ hab hbc => Nat.le_trans hbc hab⟩

/-- limitUserSessions (src/lib/db/sessions.ts): rank the user's sessions by
last_activity descending and delete by token everything beyond maxSessions. -/
def limitUserSessions (userId : String) (maxSessions : Nat)
    (store : List SessionRec) : List SessionRec :=
  let sorted := List.insertionSort laOrder
    (store.filter (fun s => s.user_id = userId))
  if maxSessions < sorted.length then
    let del := (sorted.drop maxSessions).map (fun s => s.token)
    store.filter (fun s => ¬ del.contains s.token)
  else store

/-- createSession (src/lib/db/sessions.ts): evict down to cap − 1, then
insert a fresh row with expiry now + TTL.  The generated random token and
row id arrive as parameters. -/
def createSession (userId newId token : String) (now : Nat)
    (ipAddress deviceInfo : Option String)
    (store : List SessionRec) : List SessionRec :=
  limitUserSessions userId (MAX_SESSIONS_PER_USER - 1) store ++
    [{ id := newId, user_id := userId, token := token,
       expires_at := calculateSessionExpiry now, created_at := now,
       ip_address := ipAddress, device_info := deviceInfo,
       last_activity := now, fresh := false }]

-- ===============================
-- Token codec (src/lib/auth/api-tokens/token-encryption.ts)
-- ===============================

/-- Encryption envelope (EncryptedTokenData).  The source stores hex strings
in a JSONB column, so at run time any field may be absent: the fields are
Options, modelling Partial of the source interface as used by
isValidEncryptedData. -/
structure EncryptedTokenData where
  encrypted : Option String
  iv : Option String
  tag : Option String
  algorithm : Option String
deriving DecidableEq, Repr

/-- The node crypto AES-256-GCM primitive, abstracted: enc key iv aad msg
returns (ciphertext hex, tag hex); dec reverses it or fails. -/
structure AEADCipher where
  enc : String → String → String → String → String × String
  dec : String → String → String → String → String → Option String

/-- Call contract of an authenticated cipher, as assumed of the library:
decryption inverts encryption; decryption succeeds only on genuine outputs;
the tag binds the nonce and the message; the ciphertext determines the
message; ciphertext is empty exactly for the empty message (GCM is length
preserving and the hex of an empty buffer is empty); tags are never empty
(a GCM tag is 16 bytes). -/
def IsPerfectAEAD (C : AEADCipher) : Prop :=
  (∀ k iv aad m, C.dec k iv aad (C.enc k iv aad m).1 (C.enc k iv aad m).2 = some m) ∧
  (∀ k iv aad ct tg m, C.dec k iv aad ct tg = some m → C.enc k iv aad m = (ct, tg)) ∧
  (∀ k iv iv' aad m m', (C.enc k iv aad m).2 = (C.enc k iv' aad m').2 →
      iv = iv' ∧ m = m') ∧
  (∀ k iv aad m m', (C.enc k iv aad m).1 = (C.enc k iv aad m').1 → m = m') ∧
  (∀ k iv aad m, ((C.enc k iv aad m).1 = "" ↔ m = "")) ∧
  (∀ k iv aad m, (C.enc k iv aad m).2 ≠ "")

/-- encryptToken: encrypt under the process key with the fixed api-token AAD and a
random iv (a parameter here), producing the four-field envelope. -/
def encryptToken (C : AEADCipher) (key iv token : String) : EncryptedTokenData :=
  let p := C.enc key iv ("api-token") token
  { encrypted := some p.1, iv := some iv, tag := some p.2,
    algorithm := some ("aes-256-gcm") }

/-- decryptToken: reject envelopes with missing or empty (falsy) ciphertext,
iv or tag; default a missing or empty algorithm to aes-256-gcm; an unknown
algorithm makes createDecipheriv throw; otherwise delegate to the cipher
with the same AAD.  A thrown error is none. -/
def decryptToken (C : AEADCipher) (key : String) (e : EncryptedTokenData) :
    Option String :=
  match e.encrypted, e.iv, e.tag with
  | some ct, some iv, some tg =>
    if ct = "" ∨ iv = "" ∨ tg = "" then none
    else
      let alg := match e.algorithm with
        | some a => if a = "" then ("aes-256-gcm") else a
        | none => ("aes-256-gcm")
      if alg = ("aes-256-gcm") then C.dec key iv ("api-token") ct tg else none
  | _, _, _ => none

/-- isValidEncryptedData: structural validation of the envelope.  The source
checks that encrypted, iv and tag are strings, that encrypted is non-empty
and that iv and tag are exactly 32 hex characters; the algorithm field is
not inspected. -/
def isValidEncryptedData (d : EncryptedTokenData) : Bool :=
  (match d.encrypted with | some s => decide (0 < s.length) | none => false) &&
  (match d.iv with | some s => decide (s.length = 32) | none => false) &&
  (match d.tag with | some s => decide (s.length = 32) | none => false)

-- ===============================
-- API token authority (src/lib/db/api-tokens.ts, api-tokens/index.ts)
-- ===============================

/-- APIToken record (src/lib/db/api-tokens.ts APIToken). -/
structure APITokenRec where
  id : String
  token_hash : String
  pfx : String
  name : String
  scopes : List String
  user_id : Option String
  expires_at : Option Nat
  last_used_at : Option Nat
  created_at : Nat
  revoked_at : Option Nat
  token_encrypted : EncryptedTokenData
  allow_viewing : Bool
deriving DecidableEq, Repr

/-- Closed scope vocabulary (AVAILABLE_SCOPES). -/
def AVAILABLE_SCOPES : List String :=
  ["api:read", "api:write", "events:read", "events:write",
   "users:read", "users:write", "profile:read", "profile:write",
   "admin:manage"]

/-- Fixed literal lead of every token secret (TOKEN_PREFIX in the source). -/
def TOKEN_PFX : String := "cx"

/-- Base36 timestamp length (TOKEN_TIMESTAMP_LENGTH). -/
def TOKEN_TIMESTAMP_LENGTH : Nat := 8

/-- The first n characters of a string (substring(0, n) in the source). -/
def strTake (s : String) (n : Nat) : String := String.mk (s.data.take n)

/-- Split on underscores, keeping empty pieces, as the source language's
split does. -/
def splitUnderscoreAux : List Char → List Char → List (List Char)
  | [], acc => [acc.reverse]
  | c :: rest, acc =>
    if c = '_' then acc.reverse :: splitUnderscoreAux rest []
    else splitUnderscoreAux rest (c :: acc)

def splitUnderscore (s : String) : List String :=
  (splitUnderscoreAux s.data []).map String.mk

/-- Leading-piece test (startsWith in the source). -/
def strStartsWith (s p : String) : Bool := s.data.take p.data.length == p.data

/-- extractTokenPrefix in the source: split on underscore and keep the
literal lead plus the first 8 characters of the second part, falling back
to the first 20 characters. -/
def extractTokenPfx (token : String) : String :=
  let parts := splitUnderscore token
  if 2 ≤ parts.length then
    (parts.getD 0 ("")) ++ ("_") ++ strTake (parts.getD 1 ("")) TOKEN_TIMESTAMP_LENGTH
  else strTake token 20

/-- getTokensByPrefix in the source: the non-revoked bucket for a visible
lead, newest first. -/
def getTokensByPfx (p : String) (store : List APITokenRec) : List APITokenRec :=
  List.insertionSort (fun a b => b.created_at ≤ a.created_at)
    (store.filter (fun t => t.pfx = p ∧ t.revoked_at = none))

/-- Clock comparison used inside validateAPIToken (and isTokenExpired). -/
def tokenExpiredAt (t : APITokenRec) (now : Nat) : Bool :=
  match t.expires_at with
  | some e => decide (e ≤ now)
  | none => false

/-- Result shape of validateAPIToken (APITokenValidationResult). -/
structure APITokenValidationResult where
  valid : Bool
  token : Option APITokenRec
  user_id : Option String
  scopes : Option (List String)
  error : Option String
deriving DecidableEq, Repr

/-- The candidate loop of validateAPIToken: skip revoked, skip expired,
accept the first candidate whose bcrypt hash verifies. -/
def checkCandidates (verify : String → String → Bool) (token : String)
    (now : Nat) : List APITokenRec → APITokenValidationResult
  | [] => ⟨false, none, none, none, some ("Invalid token")⟩
  | t :: rest =>
    if t.revoked_at ≠ none then checkCandidates verify token now rest
    else if tokenExpiredAt t now then checkCandidates verify token now rest
    else if verify token t.token_hash then
      ⟨true, some t, t.user_id, some t.scopes, none⟩
    else checkCandidates verify token now rest

/-- validateAPIToken (src/lib/auth/api-tokens/index.ts): reject empty and
malformed secrets, fetch the bucket, scan it. -/
def validateAPIToken (verify : String → String → Bool) (token : String)
    (now : Nat) (store : List APITokenRec) : APITokenValidationResult :=
  if token = "" then ⟨false, none, none, none, some ("No token provided")⟩
  else if strStartsWith token (TOKEN_PFX ++ ("_")) then
    let cands := getTokensByPfx (extractTokenPfx token) store
    if cands.isEmpty then ⟨false, none, none, none, some ("Invalid token")⟩
    else checkCandidates verify token now cands
  else ⟨false, none, none, none, some ("Invalid token format")⟩

/-- Issuance request (CreateTokenRequest). -/
structure CreateTokenRequest where
  name : String
  scopes : List String
  user_id : Option String
  expires_in_days : Option Nat
deriving DecidableEq, Repr

/-- One day in milliseconds (the source advances a Date by whole days). -/
def DAY_MS : Nat := 24 * 60 * 60 * 1000

/-- createAPIToken (src/lib/auth/api-tokens/index.ts): validate the scope
set, derive hash and visible lead from the generated secret, compute expiry
from positive expires_in_days, always encrypt, then insert.  The generated
secret, the fresh row id, the bcrypt hash function, the cipher, the process
key and the random iv are parameters.  Errors are thrown before any insert,
so the error branch carries no store. -/
def createAPIToken (req : CreateTokenRequest) (genTok newId : String)
    (hashFn : String → String) (C : AEADCipher) (key iv : String) (now : Nat)
    (store : List APITokenRec) :
    Except String (String × APITokenRec × List APITokenRec) :=
  let invalidScopes := req.scopes.filter (fun s => ¬ AVAILABLE_SCOPES.contains s)
  if invalidScopes ≠ [] then
    .error (("Invalid scopes: ") ++ String.intercalate (", ") invalidScopes)
  else if req.scopes.length = 0 then
    .error ("At least one scope is required")
  else
    let tokenHash := hashFn genTok
    let p := extractTokenPfx genTok
    let expires : Option Nat :=
      match req.expires_in_days with
      | some d => if 0 < d then some (now + d * DAY_MS) else none
      | none => none
    let tokEnc := encryptToken C key iv genTok
    if store.any (fun t => t.token_hash = tokenHash) then
      .error ("Token with this hash already exists")
    else
      let tokenData : APITokenRec :=
        { id := newId, token_hash := tokenHash, pfx := p, name := req.name,
          scopes := req.scopes, user_id := req.user_id, expires_at := expires,
          last_used_at := none, created_at := now, revoked_at := none,
          token_encrypted := tokEnc, allow_viewing := true }
      .ok (genTok, tokenData, store ++ [tokenData])

/-- Update payload (UpdateAPITokenData with last_used_at and revoked_at
omitted, as updateToken receives it). -/
structure UpdateAPITokenData where
  name : Option String
  scopes : Option (List String)
  expires_at : Option (Option Nat)
  token_encrypted : Option EncryptedTokenData
  allow_viewing : Option Bool
deriving DecidableEq, Repr

/-- updateAPIToken (src/lib/db/api-tokens.ts): apply the provided fields to
the row with the given id; a missing row is a thrown error. -/
def updateAPIToken (tokenId : String) (u : UpdateAPITokenData)
    (store : List APITokenRec) :
    Except String (APITokenRec × List APITokenRec) :=
  match store.find? (fun t => t.id = tokenId) with
  | none => .error ("Failed to update API token")
  | some t =>
    let t' := { t with
      name := u.name.getD t.name,
      scopes := u.scopes.getD t.scopes,
      expires_at := u.expires_at.getD t.expires_at,
      token_encrypted := u.token_encrypted.getD t.token_encrypted,
      allow_viewing := u.allow_viewing.getD t.allow_viewing }
    .ok (t', store.map (fun s => if s.id = tokenId then t' else s))

/-- updateToken (src/lib/auth/api-tokens/index.ts): when a scopes list is
present (an empty list is present: an empty array is truthy in the source
language) every member must be in the vocabulary; then forward. -/
def updateToken (tokenId : String) (u : UpdateAPITokenData)
    (store : List APITokenRec) :
    Except String (APITokenRec × List APITokenRec) :=
  match u.scopes with
  | some l =>
    let invalidScopes := l.filter (fun s => ¬ AVAILABLE_SCOPES.contains s)
    if invalidScopes ≠ [] then
      .error (("Invalid scopes: ") ++ String.intercalate (", ") invalidScopes)
    else updateAPIToken tokenId u store
  | none => updateAPIToken tokenId u store

/-- hasScope (scope membership). -/
def hasScope (userScopes : List String) (requiredScope : String) : Bool :=
  userScopes.contains requiredScope

/-- hasAnyScope (OR semantics helper). -/
def hasAnyScope (userScopes requiredScopes : List String) : Bool :=
  requiredScopes.any (fun s => userScopes.contains s)

/-- hasAllScopes (AND semantics, the default guard). -/
def hasAllScopes (userScopes requiredScopes : List String) : Bool :=
  requiredScopes.all (fun s => userScopes.contains s)

/-- getAPITokenById (exact id lookup). -/
def getAPITokenById (tokenId : String) (store : List APITokenRec) :
    Option APITokenRec :=
  store.find? (fun t => t.id = tokenId)

/-- Decryption view result (TokenWithDecryptedData). -/
structure TokenWithDecryptedData where
  tokenData : APITokenRec
  decrypted_token : Option String
  can_decrypt : Bool
  encryption_status : String
deriving DecidableEq, Repr

/-- getTokenWithDecryption: a structurally invalid envelope is reported as
status invalid; a decryption failure on a structurally valid envelope as
status error; success as status encrypted. -/
def getTokenWithDecryption (C : AEADCipher) (key : String)
    (store : List APITokenRec) (tokenId : String) :
    Option TokenWithDecryptedData :=
  match getAPITokenById tokenId store with
  | none => none
  | some td =>
    if isValidEncryptedData td.token_encrypted then
      match decryptToken C key td.token_encrypted with
      | some d => some ⟨td, some d, true, ("encrypted")⟩
      | none => some ⟨td, none, false, ("error")⟩
    else some ⟨td, none, false, ("invalid")⟩

-- ===============================
-- Auth context resolver (middleware.ts, api-tokens/index.ts)
-- ===============================

/-- The slice of an incoming request the resolver reads: the two credential
headers and the auth-session cookie. -/
structure NextRequestM where
  authorization : Option String
  xApiKey : Option String
  sessionCookie : Option String
deriving DecidableEq, Repr

/-- extractTokenFromRequest: a well-formed bearer Authorization header wins;
otherwise the X-API-Key header.  A present but malformed Authorization
header falls through to the fallback header. -/
def extractTokenFromRequest (req : NextRequestM) : Option String :=
  let fromAuth : Option String :=
    match req.authorization with
    | none => none
    | some h =>
      if h = "" then none
      else
        match h.splitOn (" ") with
        | [scheme, tok] => if scheme.toLower = ("bearer") then some tok else none
        | _ => none
  match fromAuth with
  | some t => some t
  | none =>
    match req.xApiKey with
    | some k => if k = "" then none else some k
    | none => none

/-- authenticateAPIRequest: extract then validate. -/
def authenticateAPIRequest (verify : String → String → Bool) (now : Nat)
    (store : List APITokenRec) (req : NextRequestM) : APITokenValidationResult :=
  match extractTokenFromRequest req with
  | none => ⟨false, none, none, none, some ("No API token provided")⟩
  | some t => validateAPIToken verify t now store

/-- Resolved context (AuthContext in api-tokens/middleware.ts). -/
structure AuthContext where
  type : String
  user_id : Option String
  scopes : Option (List String)
  api_token_id : Option String
  session_id : Option String
deriving DecidableEq, Repr

/-- authenticateRequest (api-tokens/middleware.ts): try API-token
authentication; everything else resolves to the none context — the session
cookie branch is an unimplemented TODO in the source. -/
def authenticateRequest (verify : String → String → Bool) (now : Nat)
    (store : List APITokenRec) (req : NextRequestM) : AuthContext :=
  let apiAuth := authenticateAPIRequest verify now store req
  match apiAuth.valid, apiAuth.token with
  | true, some t => ⟨("api_token"), apiAuth.user_id, apiAuth.scopes,
      some t.id, none⟩
  | _, _ => ⟨("none"), none, none, none, none⟩

-- ===============================
-- A reference instance of the cipher contract, used to witness it
-- ===============================

/-- Injective encoding of a byte list into Nat via iterated pairing. -/
def encodeCharList (l : List Nat) : Nat :=
  l.foldr (fun a b => Nat.pair a b + 1) 0

theorem encodeCharList_inj : ∀ {l₁ l₂ : List Nat},
    encodeCharList l₁ = encodeCharList l₂ → l₁ = l₂ := by
  intro l₁
  induction l₁ with
  | nil =>
    intro l₂ h
    cases l₂ with
    | nil => rfl
    | cons b u => simp [encodeCharList] at h
  | cons a t ih =>
    intro l₂ h
    cases l₂ with
    | nil => simp [encodeCharList] at h
    | cons b u =>
      simp only [encodeCharList, List.foldr_cons] at h
      have hp := Nat.pair_eq_pair.mp (Nat.succ_injective h)
      have ht : t = u := ih hp.2
      rw [hp.1, ht]

/-- Injective encoding of a string into Nat. -/
def sEnc (s : String) : Nat := encodeCharList (s.data.map Char.toNat)

theorem sEnc_inj {s₁ s₂ : String} (h : sEnc s₁ = sEnc s₂) : s₁ = s₂ := by
  have h1 := encodeCharList_inj h
  have hinj : Function.Injective Char.toNat := fun a b hab => Char.ext (UInt32.ext hab)
  exact String.ext (List.map_injective_iff.mpr hinj h1)

/-- Deterministic reference tag binding the nonce and the message. -/
def tagOf (iv m : String) : String :=
  String.mk (List.replicate (Nat.pair (sEnc iv) (sEnc m) + 1) 'a')

theorem tagOf_inj {iv m iv' m' : String} (h : tagOf iv m = tagOf iv' m') :
    iv = iv' ∧ m = m' := by
  have hlen := congrArg String.length h
  simp only [tagOf, String.length, List.length_replicate] at hlen
  have hp := Nat.pair_eq_pair.mp (Nat.succ_injective hlen)
  exact ⟨sEnc_inj hp.1, sEnc_inj hp.2⟩

theorem tagOf_ne_empty (iv m : String) : tagOf iv m ≠ "" := by
  intro h
  have hlen := congrArg String.length h
  simp [tagOf, String.length] at hlen

/-- A reference cipher satisfying the contract: the ciphertext is the
message itself and the tag is the injective encoding of nonce and message. -/
def toyCipher : AEADCipher :=
  { enc := fun _ iv _ m => (m, tagOf iv m),
    dec := fun _ iv _ ct tg => if tg = tagOf iv ct then some ct else none }

theorem toyCipher_perfect : IsPerfectAEAD toyCipher := by
  refine ⟨?_, ?_, ?_, ?_, ?_, ?_⟩
  · intro k iv aad m; simp [toyCipher]
  · intro k iv aad ct tg m h
    simp only [toyCipher] at h
    by_cases hc : tg = tagOf iv ct
    · rw [if_pos hc] at h
      have hm : ct = m := Option.some.inj h
      subst hm
      simp [toyCipher, hc]
    · rw [if_neg hc] at h
      exact absurd h (by simp)
  · intro k iv iv' aad m m' h
    exact tagOf_inj h
  · intro k iv aad m m' h
    exact h
  · intro k iv aad m; simp [toyCipher]
  · intro k iv aad m
    exact tagOf_ne_empty iv m

-- ===============================
-- Claim C9
-- ===============================

/-- C9: hasAllScopes implements AND semantics — it is true exactly when
every required scope is a member of the token's scope list — and it is
monotone under enlarging the token's scope set. -/
theorem c9_has_all_scopes_and_monotone (userScopes userScopes' requiredScopes : List String) :
    (hasAllScopes userScopes requiredScopes = true ↔
      ∀ s ∈ requiredScopes, s ∈ userScopes) ∧
    (userScopes ⊆ userScopes' →
      hasAllScopes userScopes requiredScopes = true →
      hasAllScopes userScopes' requiredScopes = true) := by
  constructor
  · simp [hasAllScopes, List.all_eq_true, List.contains, List.elem_iff]
  · intro hsub hall
    simp only [hasAllScopes, List.all_eq_true, List.contains, List.elem_iff] at hall ⊢
    exact fun s hs => hsub (hall s hs)

/-- C9 witness at concrete scope lists. -/
theorem c9_has_all_scopes_and_monotone_witness :
    (hasAllScopes ["api:read"] ["api:read"] = true ↔
      ∀ s ∈ (["api:read"] : List String), s ∈ (["api:read"] : List String)) ∧
    ((["api:read"] : List String) ⊆ ["api:read", "api:write"] →
      hasAllScopes ["api:read"] ["api:read"] = true →
      hasAllScopes ["api:read", "api:write"] ["api:read"] = true) :=
  c9_has_all_scopes_and_monotone ["api:read"] ["api:read", "api:write"] ["api:read"]

-- ===============================
-- Claim C8 (helper shared with C10)
-- ===============================

theorem createAPIToken_scope_error (req : CreateTokenRequest)
    (genTok newId : String) (hashFn : String → String) (C : AEADCipher)
    (key iv : String) (now : Nat) (store : List APITokenRec)
    (h : req.scopes = [] ∨ ∃ s ∈ req.scopes, s ∉ AVAILABLE_SCOPES) :
    ∃ msg, createAPIToken req genTok newId hashFn C key iv now store = .error msg := by
  rcases h with h | ⟨s, hs, hbad⟩
  · exact ⟨("At least one scope is required"), by simp [createAPIToken, h]⟩
  · have hmem : s ∈ req.scopes.filter (fun s => ¬ AVAILABLE_SCOPES.contains s) := by
      rw [List.mem_filter]
      refine ⟨hs, ?_⟩
      simp [List.contains, List.elem_iff, hbad]
    have hne : req.scopes.filter (fun s => ¬ AVAILABLE_SCOPES.contains s) ≠ [] :=
      List.ne_nil_of_mem hmem
    refine ⟨("Invalid scopes: ") ++ String.intercalate (", ")
      (req.scopes.filter (fun s => ¬ AVAILABLE_SCOPES.contains s)), ?_⟩
    simp only [createAPIToken]
    rw [if_pos hne]

/-- C8: createAPIToken raises a validation error when the scope set is empty
or contains any scope outside AVAILABLE_SCOPES; the error is thrown before
the insert, so no token record is created. -/
theorem c8_issue_rejects_bad_scopes (req : CreateTokenRequest)
    (genTok newId : String) (hashFn : String → String) (C : AEADCipher)
    (key iv : String) (now : Nat) (store : List APITokenRec)
    (h : req.scopes = [] ∨ ∃ s ∈ req.scopes, s ∉ AVAILABLE_SCOPES) :
    ∃ msg, createAPIToken req genTok newId hashFn C key iv now store = .error msg :=
  createAPIToken_scope_error req genTok newId hashFn C key iv now store h

/-- C8 witness: the empty scope set is rejected at a concrete input. -/
theorem c8_issue_rejects_bad_scopes_witness :
    ∃ msg, createAPIToken ⟨("n"), [], none, none⟩ ("cx_00000000aa") ("id1")
      (fun t => t) toyCipher ("k") ("iv1") 0 [] = .error msg :=
  c8_issue_rejects_bad_scopes ⟨("n"), [], none, none⟩ ("cx_00000000aa") ("id1")
    (fun t => t) toyCipher ("k") ("iv1") 0 [] (Or.inl rfl)

-- ===============================
-- Claim C10
-- ===============================

/-- C10: an update whose scopes field is the empty list passes updateToken's
scope validation (an empty array is truthy, and filtering it yields no
invalid scopes) and is forwarded to updateAPIToken, which persists the empty
scope set — the non-empty-scopes rule of issuance is not enforced on update. -/
theorem c10_update_accepts_empty_scopes (tokenId : String)
    (u : UpdateAPITokenData) (store : List APITokenRec) (t : APITokenRec)
    (hu : u.scopes = some [])
    (hfind : store.find? (fun x => x.id = tokenId) = some t) :
    updateToken tokenId u store = updateAPIToken tokenId u store ∧
    ∃ t' store', updateAPIToken tokenId u store = .ok (t', store') ∧
      t'.scopes = [] ∧ t' ∈ store' := by
  constructor
  · unfold updateToken
    rw [hu]
    simp
  · unfold updateAPIToken
    rw [hfind]
    refine ⟨_, _, rfl, ?_, ?_⟩
    · simp [hu]
    · have hp : t.id = tokenId := by
        have h2 := List.find?_some hfind
        simpa using h2
      refine List.mem_map.mpr ⟨t, List.mem_of_find?_eq_some hfind, ?_⟩
      rw [if_pos hp]

/-- C10 witness: a concrete one-row store and an empty-scopes update. -/
theorem c10_update_accepts_empty_scopes_witness :
    updateToken ("id1") ⟨none, some [], none, none, none⟩
        [{ id := ("id1"), token_hash := ("h1"), pfx := ("cx_00000000"),
           name := ("n"), scopes := [("api:read")], user_id := none,
           expires_at := none, last_used_at := none, created_at := 0,
           revoked_at := none,
           token_encrypted := ⟨none, none, none, none⟩,
           allow_viewing := true }] =
      updateAPIToken ("id1") ⟨none, some [], none, none, none⟩
        [{ id := ("id1"), token_hash := ("h1"), pfx := ("cx_00000000"),
           name := ("n"), scopes := [("api:read")], user_id := none,
           expires_at := none, last_used_at := none, created_at := 0,
           revoked_at := none,
           token_encrypted := ⟨none, none, none, none⟩,
           allow_viewing := true }] ∧
    ∃ t' store', updateAPIToken ("id1") ⟨none, some [], none, none, none⟩
        [{ id := ("id1"), token_hash := ("h1"), pfx := ("cx_00000000"),
           name := ("n"), scopes := [("api:read")], user_id := none,
           expires_at := none, last_used_at := none, created_at := 0,
           revoked_at := none,
           token_encrypted := ⟨none, none, none, none⟩,
           allow_viewing := true }] = .ok (t', store') ∧
      t'.scopes = [] ∧ t' ∈ store' :=
  c10_update_accepts_empty_scopes ("id1") ⟨none, some [], none, none, none⟩
    [{ id := ("id1"), token_hash := ("h1"), pfx := ("cx_00000000"),
       name := ("n"), scopes := [("api:read")], user_id := none,
       expires_at := none, last_used_at := none, created_at := 0,
       revoked_at := none,
       token_encrypted := ⟨none, none, none, none⟩,
       allow_viewing := true }]
    { id := ("id1"), token_hash := ("h1"), pfx := ("cx_00000000"),
      name := ("n"), scopes := [("api:read")], user_id := none,
      expires_at := none, last_used_at := none, created_at := 0,
      revoked_at := none,
      token_encrypted := ⟨none, none, none, none⟩,
      allow_viewing := true }
    rfl (by decide)

-- ===============================
-- Claim C2
-- ===============================

/-- C2: for a session that is found and not yet expired, validateSession
extends expires_at to now + full TTL and marks the result fresh exactly when
the time remaining is below SESSION_REFRESH_THRESHOLD (half the TTL), and
otherwise returns the session unchanged and not fresh, leaving the store
untouched. -/
theorem c2_sliding_refresh (token : String) (now : Nat) (users : List User)
    (store : List SessionRec) (s : SessionRec)
    (htok : token ≠ "")
    (hfind : store.find? (fun x => x.token = token) = some s)
    (hlive : now < s.expires_at) :
    (s.expires_at - now < SESSION_REFRESH_THRESHOLD →
      validateSession token now users store =
        (⟨users.find? (fun u => u.id = s.user_id),
          some { s with expires_at := now + SESSION_EXPIRES_IN, fresh := true }⟩,
         store.map (fun x =>
           if x.token = token then { x with expires_at := now + SESSION_EXPIRES_IN }
           else x))) ∧
    (SESSION_REFRESH_THRESHOLD ≤ s.expires_at - now →
      validateSession token now users store =
        (⟨users.find? (fun u => u.id = s.user_id), some { s with fresh := false }⟩,
         store)) := by
  have hnotexp : ¬ s.expires_at ≤ now := Nat.not_le.mpr hlive
  constructor
  · intro hth
    unfold validateSession
    simp [hfind, hnotexp, hth, htok, calculateSessionExpiry]
  · intro hth
    have hnt : ¬ (s.expires_at - now < SESSION_REFRESH_THRESHOLD) := Nat.not_lt.mpr hth
    unfold validateSession
    simp [hfind, hnotexp, hnt, htok]

/-- C2 witness: a session 100 ms from expiry is refreshed to now + TTL. -/
theorem c2_sliding_refresh_witness :
    ((100 : Nat) - 0 < SESSION_REFRESH_THRESHOLD →
      validateSession ("t1") 0 []
        [{ id := ("s1"), user_id := ("u1"), token := ("t1"), expires_at := 100,
           created_at := 0, ip_address := none, device_info := none,
           last_activity := 0, fresh := false }] =
        (⟨List.find? (fun u => u.id = ("u1")) [],
          some { id := ("s1"), user_id := ("u1"), token := ("t1"),
                 expires_at := 0 + SESSION_EXPIRES_IN, created_at := 0,
                 ip_address := none, device_info := none,
                 last_activity := 0, fresh := true }⟩,
         List.map (fun x =>
           if x.token = ("t1") then { x with expires_at := 0 + SESSION_EXPIRES_IN }
           else x)
           [{ id := ("s1"), user_id := ("u1"), token := ("t1"), expires_at := 100,
              created_at := 0, ip_address := none, device_info := none,
              last_activity := 0, fresh := false }])) ∧
    (SESSION_REFRESH_THRESHOLD ≤ (100 : Nat) - 0 →
      validateSession ("t1") 0 []
        [{ id := ("s1"), user_id := ("u1"), token := ("t1"), expires_at := 100,
           created_at := 0, ip_address := none, device_info := none,
           last_activity := 0, fresh := false }] =
        (⟨List.find? (fun u => u.id = ("u1")) [],
          some { id := ("s1"), user_id := ("u1"), token := ("t1"),
                 expires_at := 100, created_at := 0, ip_address := none,
                 device_info := none, last_activity := 0, fresh := false }⟩,
         [{ id := ("s1"), user_id := ("u1"), token := ("t1"), expires_at := 100,
            created_at := 0, ip_address := none, device_info := none,
            last_activity := 0, fresh := false }])) :=
  c2_sliding_refresh ("t1") 0 []
    [{ id := ("s1"), user_id := ("u1"), token := ("t1"), expires_at := 100,
       created_at := 0, ip_address := none, device_info := none,
       last_activity := 0, fresh := false }]
    { id := ("s1"), user_id := ("u1"), token := ("t1"), expires_at := 100,
      created_at := 0, ip_address := none, device_info := none,
      last_activity := 0, fresh := false }
    (by decide) (by decide) (by decide)

-- ===============================
-- Claim C5
-- ===============================

/-- C5: validating an expired session returns the unauthenticated result and
deletes the record; no session with that token remains, and a retry at any
later time again returns unauthenticated and changes nothing. -/
theorem c5_expired_session_reaped (token : String) (now now' : Nat)
    (users users' : List User) (store : List SessionRec) (s : SessionRec)
    (htok : token ≠ "")
    (hfind : store.find? (fun x => x.token = token) = some s)
    (hexp : s.expires_at ≤ now) :
    validateSession token now users store = (⟨none, none⟩, deleteSession token store) ∧
    (∀ x ∈ deleteSession token store, x.token ≠ token) ∧
    validateSession token now' users' (deleteSession token store) =
      (⟨none, none⟩, deleteSession token store) := by
  have hgone : ∀ x ∈ deleteSession token store, x.token ≠ token := by
    intro x hx
    have hx2 := (List.mem_filter.mp hx).2
    simpa using hx2
  refine ⟨?_, hgone, ?_⟩
  · unfold validateSession
    simp [hfind, hexp, htok]
  · have hnone : (deleteSession token store).find? (fun x => x.token = token) = none := by
      rw [List.find?_eq_none]
      intro x hx
      simpa using hgone x hx
    unfold validateSession
    simp [hnone, htok]

/-- C5 witness: one expired session is reaped and stays gone on retry. -/
theorem c5_expired_session_reaped_witness :
    validateSession ("t1") 50 []
      [{ id := ("s1"), user_id := ("u1"), token := ("t1"), expires_at := 50,
         created_at := 0, ip_address := none, device_info := none,
         last_activity := 0, fresh := false }] =
      (⟨none, none⟩, deleteSession ("t1")
        [{ id := ("s1"), user_id := ("u1"), token := ("t1"), expires_at := 50,
           created_at := 0, ip_address := none, device_info := none,
           last_activity := 0, fresh := false }]) ∧
    (∀ x ∈ deleteSession ("t1")
        [{ id := ("s1"), user_id := ("u1"), token := ("t1"), expires_at := 50,
           created_at := 0, ip_address := none, device_info := none,
           last_activity := 0, fresh := false }], x.token ≠ ("t1")) ∧
    validateSession ("t1") 99 []
      (deleteSession ("t1")
        [{ id := ("s1"), user_id := ("u1"), token := ("t1"), expires_at := 50,
           created_at := 0, ip_address := none, device_info := none,
           last_activity := 0, fresh := false }]) =
      (⟨none, none⟩, deleteSession ("t1")
        [{ id := ("s1"), user_id := ("u1"), token := ("t1"), expires_at := 50,
           created_at := 0, ip_address := none, device_info := none,
           last_activity := 0, fresh := false }]) :=
  c5_expired_session_reaped ("t1") 50 99 [] []
    [{ id := ("s1"), user_id := ("u1"), token := ("t1"), expires_at := 50,
       created_at := 0, ip_address := none, device_info := none,
       last_activity := 0, fresh := false }]
    { id := ("s1"), user_id := ("u1"), token := ("t1"), expires_at := 50,
      created_at := 0, ip_address := none, device_info := none,
      last_activity := 0, fresh := false }
    (by decide) (by decide) (by decide)

-- ===============================
-- Claim C3
-- ===============================

/-- A request carrying no credential headers, only the auth-session cookie. -/
def c3req : NextRequestM :=
  { authorization := none, xApiKey := none, sessionCookie := some ("sess-token-1") }

def c3users : List User :=
  [{ id := ("u1"), email := ("a@b.c"), name := ("N"), created_at := 0,
     url_token := ("url1") }]

def c3sessions : List SessionRec :=
  [{ id := ("s1"), user_id := ("u1"), token := ("sess-token-1"),
     expires_at := 99999999999999, created_at := 0, ip_address := none,
     device_info := none, last_activity := 0, fresh := false }]

/-- C3: the resolver never falls back to the cookie session.  For a request
whose only credential is a session cookie that validateSession accepts,
authenticateRequest still resolves to the none context: the session branch
of the resolver is an unimplemented TODO in the source, contradicting its
own doc comment and the spec's fallback policy. -/
theorem c3_no_session_fallback :
    (authenticateRequest (fun _ _ => false) 1000 [] c3req).type = ("none") ∧
    (validateSession ("sess-token-1") 1000 c3users c3sessions).1.session ≠ none ∧
    (validateSession ("sess-token-1") 1000 c3users c3sessions).1.user =
      some { id := ("u1"), email := ("a@b.c"), name := ("N"), created_at := 0,
             url_token := ("url1") } := by
  refine ⟨rfl, ?_, ?_⟩ <;> decide

-- ===============================
-- Claim C7
-- ===============================

/-- C7 counterexample: an envelope with no algorithm field at all, but a
non-empty ciphertext and 32-character iv and tag, is accepted as
structurally valid — the source never inspects the algorithm field, so
"all four fields present" is not what is checked. -/
theorem c7_algorithm_not_checked_counterexample :
    isValidEncryptedData
      { encrypted := some ("ab"),
        iv := some ("00112233445566778899aabbccddeeff"),
        tag := some ("00112233445566778899aabbccddeeff"),
        algorithm := none } = true := by decide

theorem isValidEncryptedData_eq_true_iff (d : EncryptedTokenData) :
    isValidEncryptedData d = true ↔
      (∃ ct, d.encrypted = some ct ∧ 0 < ct.length) ∧
      (∃ ivs, d.iv = some ivs ∧ ivs.length = 32) ∧
      (∃ tg, d.tag = some tg ∧ tg.length = 32) := by
  obtain ⟨e, i, tg, alg⟩ := d
  cases e <;> cases i <;> cases tg <;> simp [isValidEncryptedData, and_assoc]

/-- C7 amended: an envelope is structurally valid exactly when the
ciphertext is present and non-empty and the iv and tag are present with
exactly 32 hex characters — the algorithm identifier is not checked — and
when viewing a token, structural invalidity is reported with status
invalid, a failure kind distinct from the decryption-failure status error. -/
theorem c7_envelope_validation_amended (C : AEADCipher) (key : String)
    (store : List APITokenRec) (tokenId : String) (td : APITokenRec)
    (hfind : store.find? (fun t => t.id = tokenId) = some td) :
    (isValidEncryptedData td.token_encrypted = true ↔
      (∃ ct, td.token_encrypted.encrypted = some ct ∧ 0 < ct.length) ∧
      (∃ ivs, td.token_encrypted.iv = some ivs ∧ ivs.length = 32) ∧
      (∃ tg, td.token_encrypted.tag = some tg ∧ tg.length = 32)) ∧
    (isValidEncryptedData td.token_encrypted = false →
      getTokenWithDecryption C key store tokenId =
        some ⟨td, none, false, ("invalid")⟩) ∧
    (isValidEncryptedData td.token_encrypted = true →
      decryptToken C key td.token_encrypted = none →
      getTokenWithDecryption C key store tokenId =
        some ⟨td, none, false, ("error")⟩) ∧
    (("invalid") : String) ≠ ("error") := by
  refine ⟨isValidEncryptedData_eq_true_iff td.token_encrypted, ?_, ?_, by decide⟩
  · intro hinv
    unfold getTokenWithDecryption getAPITokenById
    simp [hfind, hinv]
  · intro hval hdec
    unfold getTokenWithDecryption getAPITokenById
    simp [hfind, hval, hdec]

/-- C7 witness: a concrete store whose single token carries an envelope with
all three checked fields absent. -/
theorem c7_envelope_validation_amended_witness :
    (isValidEncryptedData (⟨none, none, none, none⟩ : EncryptedTokenData) = true ↔
      (∃ ct, (⟨none, none, none, none⟩ : EncryptedTokenData).encrypted = some ct ∧
        0 < ct.length) ∧
      (∃ ivs, (⟨none, none, none, none⟩ : EncryptedTokenData).iv = some ivs ∧
        ivs.length = 32) ∧
      (∃ tg, (⟨none, none, none, none⟩ : EncryptedTokenData).tag = some tg ∧
        tg.length = 32)) ∧
    (isValidEncryptedData (⟨none, none, none, none⟩ : EncryptedTokenData) = false →
      getTokenWithDecryption toyCipher ("k")
        [{ id := ("id1"), token_hash := ("h1"), pfx := ("cx_00000000"),
           name := ("n"), scopes := [("api:read")], user_id := none,
           expires_at := none, last_used_at := none, created_at := 0,
           revoked_at := none, token_encrypted := ⟨none, none, none, none⟩,
           allow_viewing := true }] ("id1") =
        some ⟨{ id := ("id1"), token_hash := ("h1"), pfx := ("cx_00000000"),
                name := ("n"), scopes := [("api:read")], user_id := none,
                expires_at := none, last_used_at := none, created_at := 0,
                revoked_at := none, token_encrypted := ⟨none, none, none, none⟩,
                allow_viewing := true }, none, false, ("invalid")⟩) ∧
    (isValidEncryptedData (⟨none, none, none, none⟩ : EncryptedTokenData) = true →
      decryptToken toyCipher ("k") (⟨none, none, none, none⟩ : EncryptedTokenData) = none →
      getTokenWithDecryption toyCipher ("k")
        [{ id := ("id1"), token_hash := ("h1"), pfx := ("cx_00000000"),
           name := ("n"), scopes := [("api:read")], user_id := none,
           expires_at := none, last_used_at := none, created_at := 0,
           revoked_at := none, token_encrypted := ⟨none, none, none, none⟩,
           allow_viewing := true }] ("id1") =
        some ⟨{ id := ("id1"), token_hash := ("h1"), pfx := ("cx_00000000"),
                name := ("n"), scopes := [("api:read")], user_id := none,
                expires_at := none, last_used_at := none, created_at := 0,
                revoked_at := none, token_encrypted := ⟨none, none, none, none⟩,
                allow_viewing := true }, none, false, ("error")⟩) ∧
    (("invalid") : String) ≠ ("error") :=
  c7_envelope_validation_amended toyCipher ("k")
    [{ id := ("id1"), token_hash := ("h1"), pfx := ("cx_00000000"),
       name := ("n"), scopes := [("api:read")], user_id := none,
       expires_at := none, last_used_at := none, created_at := 0,
       revoked_at := none, token_encrypted := ⟨none, none, none, none⟩,
       allow_viewing := true }] ("id1")
    { id := ("id1"), token_hash := ("h1"), pfx := ("cx_00000000"),
      name := ("n"), scopes := [("api:read")], user_id := none,
      expires_at := none, last_used_at := none, created_at := 0,
      revoked_at := none, token_encrypted := ⟨none, none, none, none⟩,
      allow_viewing := true }
    (by decide)

-- ===============================
-- Claim C4
-- ===============================

/-- Reduction of decryptToken on an envelope whose three data fields are
present and non-empty and whose algorithm is the supported identifier. -/
theorem decryptToken_reduce (C : AEADCipher) (key iv ct tg : String)
    (hct : ct ≠ "") (hiv : iv ≠ "") (htg : tg ≠ "") :
    decryptToken C key
      { encrypted := some ct, iv := some iv, tag := some tg,
        algorithm := some ("aes-256-gcm") } =
      C.dec key iv ("api-token") ct tg := by
  unfold decryptToken
  dsimp only
  rw [if_neg]
  · simp
  · push_neg
    exact ⟨hct, hiv, htg⟩

/-- C4 counterexample: the round trip fails for the empty secret.  Under the
cipher contract (GCM ciphertext of the empty message is the empty string),
encryptToken of the empty string yields an envelope whose ciphertext field
is empty, and decryptToken rejects any envelope with a falsy ciphertext
before attempting decryption — so decrypt(encrypt x) does not return x for
x the empty string, refuting the claim's universal quantification over all
secrets. -/
theorem c4_roundtrip_counterexample :
    IsPerfectAEAD toyCipher ∧
    decryptToken toyCipher ("k") (encryptToken toyCipher ("k") ("iv0") ("")) = none :=
  ⟨toyCipher_perfect, rfl⟩

/-- C4 amended: for every cipher satisfying the library contract, every
non-empty nonce and every non-empty secret, decryptToken inverts
encryptToken, and replacing the ciphertext, the nonce or the tag of the
envelope with any other value makes decryptToken fail with none. -/
theorem c4_roundtrip_amended (C : AEADCipher) (hPC : IsPerfectAEAD C)
    (key iv token : String) (hiv : iv ≠ "") (htok : token ≠ "") :
    (decryptToken C key (encryptToken C key iv token) = some token) ∧
    (∀ ct', ct' ≠ (C.enc key iv ("api-token") token).1 →
      decryptToken C key
        { encryptToken C key iv token with encrypted := some ct' } = none) ∧
    (∀ iv', iv' ≠ iv →
      decryptToken C key
        { encryptToken C key iv token with iv := some iv' } = none) ∧
    (∀ tg', tg' ≠ (C.enc key iv ("api-token") token).2 →
      decryptToken C key
        { encryptToken C key iv token with tag := some tg' } = none) := by
  obtain ⟨hA, hB, hTagBind, hCtInj, hE, hF⟩ := hPC
  have hct : (C.enc key iv ("api-token") token).1 ≠ "" :=
    fun h => htok ((hE key iv ("api-token") token).mp h)
  have htg : (C.enc key iv ("api-token") token).2 ≠ "" := hF key iv ("api-token") token
  refine ⟨?_, ?_, ?_, ?_⟩
  · show decryptToken C key
      { encrypted := some (C.enc key iv ("api-token") token).1, iv := some iv,
        tag := some (C.enc key iv ("api-token") token).2,
        algorithm := some ("aes-256-gcm") } = some token
    rw [decryptToken_reduce C key iv _ _ hct hiv htg]
    exact hA key iv ("api-token") token
  · intro ct' hne
    by_cases hc : ct' = ""
    · show decryptToken C key
        { encrypted := some ct', iv := some iv,
          tag := some (C.enc key iv ("api-token") token).2,
          algorithm := some ("aes-256-gcm") } = none
      unfold decryptToken
      dsimp only
      rw [if_pos (Or.inl hc)]
    · show decryptToken C key
        { encrypted := some ct', iv := some iv,
          tag := some (C.enc key iv ("api-token") token).2,
          algorithm := some ("aes-256-gcm") } = none
      rw [decryptToken_reduce C key iv _ _ hc hiv htg]
      cases hdec : C.dec key iv ("api-token") ct' (C.enc key iv ("api-token") token).2 with
      | none => rfl
      | some m =>
        exfalso
        have henc := hB key iv ("api-token") ct' _ m hdec
        have htags : (C.enc key iv ("api-token") m).2 =
            (C.enc key iv ("api-token") token).2 := by
          rw [henc]
        have hm : m = token := (hTagBind key iv iv ("api-token") m token htags).2
        have hcts : (C.enc key iv ("api-token") token).1 = ct' := by
          rw [← hm, henc]
        exact hne hcts.symm
  · intro iv' hne
    by_cases hc : iv' = ""
    · show decryptToken C key
        { encrypted := some (C.enc key iv ("api-token") token).1, iv := some iv',
          tag := some (C.enc key iv ("api-token") token).2,
          algorithm := some ("aes-256-gcm") } = none
      unfold decryptToken
      dsimp only
      rw [if_pos (Or.inr (Or.inl hc))]
    · show decryptToken C key
        { encrypted := some (C.enc key iv ("api-token") token).1, iv := some iv',
          tag := some (C.enc key iv ("api-token") token).2,
          algorithm := some ("aes-256-gcm") } = none
      rw [decryptToken_reduce C key iv' _ _ hct hc htg]
      cases hdec : C.dec key iv' ("api-token")
          (C.enc key iv ("api-token") token).1 (C.enc key iv ("api-token") token).2 with
      | none => rfl
      | some m =>
        exfalso
        have henc := hB key iv' ("api-token") _ _ m hdec
        have htags : (C.enc key iv' ("api-token") m).2 =
            (C.enc key iv ("api-token") token).2 := by
          rw [henc]
        exact hne (hTagBind key iv' iv ("api-token") m token htags).1
  · intro tg' hne
    by_cases hc : tg' = ""
    · show decryptToken C key
        { encrypted := some (C.enc key iv ("api-token") token).1, iv := some iv,
          tag := some tg', algorithm := some ("aes-256-gcm") } = none
      unfold decryptToken
      dsimp only
      rw [if_pos (Or.inr (Or.inr hc))]
    · show decryptToken C key
        { encrypted := some (C.enc key iv ("api-token") token).1, iv := some iv,
          tag := some tg', algorithm := some ("aes-256-gcm") } = none
      rw [decryptToken_reduce C key iv _ _ hct hiv hc]
      cases hdec : C.dec key iv ("api-token") (C.enc key iv ("api-token") token).1 tg' with
      | none => rfl
      | some m =>
        exfalso
        have henc := hB key iv ("api-token") _ _ m hdec
        have hcts : (C.enc key iv ("api-token") m).1 =
            (C.enc key iv ("api-token") token).1 := by
          rw [henc]
        have hm : m = token := hCtInj key iv ("api-token") m token hcts
        have : (C.enc key iv ("api-token") token).2 = tg' := by
          rw [← hm, henc]
        exact hne this.symm

/-- C4 witness: the amended statement at the reference cipher on concrete
key, nonce and secret. -/
theorem c4_roundtrip_amended_witness :
    (decryptToken toyCipher ("k") (encryptToken toyCipher ("k") ("iv0") ("cx_t")) =
      some ("cx_t")) ∧
    (∀ ct', ct' ≠ (toyCipher.enc ("k") ("iv0") ("api-token") ("cx_t")).1 →
      decryptToken toyCipher ("k")
        { encryptToken toyCipher ("k") ("iv0") ("cx_t") with encrypted := some ct' } = none) ∧
    (∀ iv', iv' ≠ ("iv0") →
      decryptToken toyCipher ("k")
        { encryptToken toyCipher ("k") ("iv0") ("cx_t") with iv := some iv' } = none) ∧
    (∀ tg', tg' ≠ (toyCipher.enc ("k") ("iv0") ("api-token") ("cx_t")).2 →
      decryptToken toyCipher ("k")
        { encryptToken toyCipher ("k") ("iv0") ("cx_t") with tag := some tg' } = none) :=
  c4_roundtrip_amended toyCipher toyCipher_perfect ("k") ("iv0") ("cx_t")
    (by decide) (by decide)

-- ===============================
-- Claim C1
-- ===============================

/-- The candidate loop accepts exactly when some candidate is non-revoked,
non-expired and hash-verified; the order of the bucket does not matter for
the accept/deny decision. -/
theorem checkCandidates_valid_iff (verify : String → String → Bool)
    (token : String) (now : Nat) (l : List APITokenRec) :
    (checkCandidates verify token now l).valid = true ↔
      ∃ t ∈ l, t.revoked_at = none ∧ tokenExpiredAt t now = false ∧
        verify token t.token_hash = true := by
  induction l with
  | nil => simp [checkCandidates]
  | cons t rest ih =>
    simp only [checkCandidates]
    by_cases hrev : t.revoked_at ≠ none
    · rw [if_pos hrev, ih]
      constructor
      · rintro ⟨u, hu, hprops⟩
        exact ⟨u, List.mem_cons_of_mem _ hu, hprops⟩
      · rintro ⟨u, hu, h1, h2, h3⟩
        rcases List.mem_cons.mp hu with heq | hu'
        · subst heq
          exact absurd h1 hrev
        · exact ⟨u, hu', h1, h2, h3⟩
    · rw [if_neg hrev]
      have hrevnone : t.revoked_at = none := not_not.mp hrev
      by_cases hexp : tokenExpiredAt t now = true
      · rw [if_pos hexp, ih]
        constructor
        · rintro ⟨u, hu, hprops⟩
          exact ⟨u, List.mem_cons_of_mem _ hu, hprops⟩
        · rintro ⟨u, hu, h1, h2, h3⟩
          rcases List.mem_cons.mp hu with heq | hu'
          · subst heq
            rw [hexp] at h2
            exact absurd h2 (by simp)
          · exact ⟨u, hu', h1, h2, h3⟩
      · rw [if_neg hexp]
        have hexp' : tokenExpiredAt t now = false := Bool.eq_false_iff.mpr hexp
        by_cases hv : verify token t.token_hash = true
        · rw [if_pos hv]
          constructor
          · intro _
            exact ⟨t, List.mem_cons_self t rest, hrevnone, hexp', hv⟩
          · intro _
            rfl
        · rw [if_neg hv, ih]
          constructor
          · rintro ⟨u, hu, hprops⟩
            exact ⟨u, List.mem_cons_of_mem _ hu, hprops⟩
          · rintro ⟨u, hu, h1, h2, h3⟩
            rcases List.mem_cons.mp hu with heq | hu'
            · subst heq
              exact absurd h3 hv
            · exact ⟨u, hu', h1, h2, h3⟩

/-- validateAPIToken accepts a well-formed secret exactly when some stored
token in its bucket is non-revoked, non-expired and hash-verified. -/
theorem validateAPIToken_valid_iff (verify : String → String → Bool)
    (token : String) (now : Nat) (store : List APITokenRec)
    (hfmt : strStartsWith token (TOKEN_PFX ++ ("_")) = true) :
    (validateAPIToken verify token now store).valid = true ↔
      ∃ t ∈ store, t.pfx = extractTokenPfx token ∧ t.revoked_at = none ∧
        tokenExpiredAt t now = false ∧ verify token t.token_hash = true := by
  have htok : token ≠ "" := by
    intro h
    subst h
    exact absurd hfmt (by decide)
  unfold validateAPIToken
  rw [if_neg htok, if_pos hfmt]
  by_cases hemp :
      (getTokensByPfx (extractTokenPfx token) store).isEmpty = true
  · rw [if_pos hemp]
    have hnil : getTokensByPfx (extractTokenPfx token) store = [] :=
      List.isEmpty_iff.mp hemp
    have hfil : store.filter
        (fun t => t.pfx = extractTokenPfx token ∧ t.revoked_at = none) = [] := by
      have hperm := List.perm_insertionSort
        (fun a b : APITokenRec => b.created_at ≤ a.created_at)
        (store.filter (fun t => t.pfx = extractTokenPfx token ∧ t.revoked_at = none))
      rw [getTokensByPfx] at hnil
      rw [hnil] at hperm
      exact (List.Perm.nil_eq hperm).symm
    simp only [show (false : Bool) = true ↔ False by simp, false_iff]
    rintro ⟨t, ht, hp, hrev, _, _⟩
    have : t ∈ store.filter
        (fun t => t.pfx = extractTokenPfx token ∧ t.revoked_at = none) := by
      rw [List.mem_filter]
      exact ⟨ht, by simp [hp, hrev]⟩
    rw [hfil] at this
    exact absurd this (List.not_mem_nil t)
  · rw [if_neg hemp, checkCandidates_valid_iff]
    constructor
    · rintro ⟨t, ht, hrev, hexp, hv⟩
      have ht' : t ∈ store.filter
          (fun t => t.pfx = extractTokenPfx token ∧ t.revoked_at = none) := by
        rw [getTokensByPfx] at ht
        exact (List.mem_insertionSort _).mp ht
      rw [List.mem_filter] at ht'
      have hcond := of_decide_eq_true ht'.2
      exact ⟨t, ht'.1, hcond.1, hrev, hexp, hv⟩
    · rintro ⟨t, ht, hp, hrev, hexp, hv⟩
      refine ⟨t, ?_, hrev, hexp, hv⟩
      rw [getTokensByPfx]
      apply (List.mem_insertionSort _).mpr
      rw [List.mem_filter]
      exact ⟨ht, by simp [hp, hrev]⟩

/-- C1: for a presented secret of the correct format and a stored record in
its bucket whose hash verifies (uniquely, as the unique hash column
guarantees), validateAPIToken accepts exactly when the record is not revoked
and now is before its expiry (or it has no expiry); a revoked or expired
record is rejected even though the hash matches. -/
theorem c1_validate_api_token_window (verify : String → String → Bool)
    (token : String) (now : Nat) (store : List APITokenRec) (r : APITokenRec)
    (hr : r ∈ store) (hpfx : r.pfx = extractTokenPfx token)
    (hfmt : strStartsWith token (TOKEN_PFX ++ ("_")) = true)
    (hver : verify token r.token_hash = true)
    (huniq : ∀ r' ∈ store, verify token r'.token_hash = true → r' = r) :
    (validateAPIToken verify token now store).valid = true ↔
      (r.revoked_at = none ∧ ∀ e, r.expires_at = some e → now < e) := by
  rw [validateAPIToken_valid_iff verify token now store hfmt]
  constructor
  · rintro ⟨t, ht, hp, hrev, hexp, hv⟩
    have heq := huniq t ht hv
    subst heq
    refine ⟨hrev, ?_⟩
    intro e he
    unfold tokenExpiredAt at hexp
    rw [he] at hexp
    have h2 : ¬ e ≤ now := by simpa using hexp
    omega
  · rintro ⟨hrev, hexp⟩
    refine ⟨r, hr, hpfx, hrev, ?_, hver⟩
    unfold tokenExpiredAt
    cases hcase : r.expires_at with
    | none => rfl
    | some e =>
      have := hexp e hcase
      simp [Nat.not_le.mpr this]

/-- C1 witness: one active stored token whose hash verifies. -/
theorem c1_validate_api_token_window_witness :
    (validateAPIToken (fun _ h => h == ("H1")) ("cx_abcdefgh123") 10
        [{ id := ("id1"), token_hash := ("H1"), pfx := ("cx_abcdefgh"),
           name := ("n"), scopes := [("api:read")], user_id := none,
           expires_at := some 1000, last_used_at := none, created_at := 0,
           revoked_at := none, token_encrypted := ⟨none, none, none, none⟩,
           allow_viewing := true }]).valid = true ↔
      ((none : Option Nat) = none ∧
        ∀ e, (some 1000 : Option Nat) = some e → 10 < e) :=
  c1_validate_api_token_window (fun _ h => h == ("H1")) ("cx_abcdefgh123") 10
    [{ id := ("id1"), token_hash := ("H1"), pfx := ("cx_abcdefgh"),
       name := ("n"), scopes := [("api:read")], user_id := none,
       expires_at := some 1000, last_used_at := none, created_at := 0,
       revoked_at := none, token_encrypted := ⟨none, none, none, none⟩,
       allow_viewing := true }]
    { id := ("id1"), token_hash := ("H1"), pfx := ("cx_abcdefgh"),
      name := ("n"), scopes := [("api:read")], user_id := none,
      expires_at := some 1000, last_used_at := none, created_at := 0,
      revoked_at := none, token_encrypted := ⟨none, none, none, none⟩,
      allow_viewing := true }
    (by decide) (by decide) (by decide) (by decide) (by decide)

-- ===============================
-- Claim C6
-- ===============================

/-- Core counting and ranking facts about deleting, from a store, the
tokens of everything beyond position k of a most-recently-active-first
ordering S of one user's sessions. -/
theorem cap_core (userId : String) (store S : List SessionRec) (k : Nat)
    (hperm : S.Perm (store.filter (fun s => s.user_id = userId)))
    (hsorted : List.Pairwise laOrder S)
    (hnodup : (store.map (fun s => s.token)).Nodup)
    (hlen : k < S.length) :
    ((store.filter (fun s =>
        ¬ ((S.drop k).map (fun x => x.token)).contains s.token)).filter
          (fun s => s.user_id = userId)).length = k ∧
    (∀ e ∈ store, e.user_id = userId →
      ((S.drop k).map (fun x => x.token)).contains e.token = true →
      ∀ r ∈ store.filter (fun s =>
          ¬ ((S.drop k).map (fun x => x.token)).contains s.token),
        r.user_id = userId → e.last_activity ≤ r.last_activity) := by
  have hsplit : S.take k ++ S.drop k = S := List.take_append_drop k S
  have hpa : List.Pairwise laOrder (S.take k ++ S.drop k) := by
    rw [hsplit]
    exact hsorted
  obtain ⟨-, -, hrel⟩ := List.pairwise_append.mp hpa
  have hFsub : (store.filter (fun s => s.user_id = userId)).Sublist store :=
    List.filter_sublist store
  have hFnodup : ((store.filter (fun s => s.user_id = userId)).map
      (fun s => s.token)).Nodup :=
    List.Nodup.sublist (List.Sublist.map _ hFsub) hnodup
  have hSnodup : (S.map (fun s => s.token)).Nodup :=
    (List.Perm.nodup_iff (List.Perm.map _ hperm)).mpr hFnodup
  have hKD : ((S.take k).map (fun s => s.token) ++
      (S.drop k).map (fun s => s.token)).Nodup := by
    rw [← List.map_append, hsplit]
    exact hSnodup
  have hdisj : List.Disjoint ((S.take k).map (fun s => s.token))
      ((S.drop k).map (fun s => s.token)) := (List.nodup_append.mp hKD).2.2
  have hSmem : ∀ {x : SessionRec}, x ∈ S → x ∈ store := fun hx =>
    (List.mem_filter.mp (hperm.mem_iff.mp hx)).1
  have hdropS : ∀ {x : SessionRec}, x ∈ S.drop k → x ∈ S := fun hx => by
    rw [← hsplit]
    exact List.mem_append_right _ hx
  constructor
  · -- the user still holds exactly k sessions after the deletion
    have hcomm : (store.filter (fun s =>
          ¬ ((S.drop k).map (fun x => x.token)).contains s.token)).filter
            (fun s => s.user_id = userId) =
        (store.filter (fun s => s.user_id = userId)).filter (fun s =>
          ¬ ((S.drop k).map (fun x => x.token)).contains s.token) := by
      rw [List.filter_filter, List.filter_filter]
      apply List.filter_congr
      intro a _
      exact Bool.and_comm _ _
    have hdropnil : (S.drop k).filter (fun s =>
        ¬ ((S.drop k).map (fun x => x.token)).contains s.token) = [] := by
      rw [List.filter_eq_nil_iff]
      intro a ha
      have hcont : ((S.drop k).map (fun x => x.token)).contains a.token = true :=
        List.elem_iff.mpr (List.mem_map_of_mem _ ha)
      intro hdec
      exact (of_decide_eq_true hdec) hcont
    have hkeepself : (S.take k).filter (fun s =>
        ¬ ((S.drop k).map (fun x => x.token)).contains s.token) = S.take k := by
      rw [List.filter_eq_self]
      intro a ha
      have hna : a.token ∉ (S.drop k).map (fun s => s.token) := fun hcontra =>
        hdisj (List.mem_map_of_mem _ ha) hcontra
      have hcf : ((S.drop k).map (fun x => x.token)).contains a.token = false :=
        Bool.eq_false_iff.mpr (fun hc => hna (List.elem_iff.mp hc))
      exact decide_eq_true (fun hc => hna (List.elem_iff.mp hc))
    have hSfil : S.filter (fun s =>
        ¬ ((S.drop k).map (fun x => x.token)).contains s.token) = S.take k := by
      have h1 : (S.take k ++ S.drop k).filter (fun s =>
          ¬ ((S.drop k).map (fun x => x.token)).contains s.token) = S.take k := by
        rw [List.filter_append, hdropnil, hkeepself, List.append_nil]
      rw [← h1]
      congr 1
      exact hsplit.symm
    rw [hcomm]
    have hpf := List.Perm.filter (fun s =>
        ¬ ((S.drop k).map (fun x => x.token)).contains s.token) hperm
    rw [← List.Perm.length_eq hpf, hSfil, List.length_take]
    exact Nat.min_eq_left (Nat.le_of_lt hlen)
  · -- every evicted session ranks at or below every retained one
    intro e he heuser hecont r hr hruser
    have hetok : e.token ∈ (S.drop k).map (fun s => s.token) :=
      List.elem_iff.mp hecont
    obtain ⟨d, hd, hdtok⟩ := List.mem_map.mp hetok
    have hds : d ∈ store := hSmem (hdropS hd)
    have hed : e = d := List.inj_on_of_nodup_map hnodup he hds hdtok.symm
    have hrnd : ¬ ((S.drop k).map (fun x => x.token)).contains r.token = true := by
      have h2 := (List.mem_filter.mp hr).2
      simpa using h2
    have hrF : r ∈ store.filter (fun s => s.user_id = userId) :=
      List.mem_filter.mpr ⟨(List.mem_filter.mp hr).1, by simp [hruser]⟩
    have hrS : r ∈ S := hperm.mem_iff.mpr hrF
    have hrsplit : r ∈ S.take k ∨ r ∈ S.drop k := by
      rw [← hsplit] at hrS
      exact List.mem_append.mp hrS
    have hrkeep : r ∈ S.take k := by
      rcases hrsplit with h | h
      · exact h
      · exact absurd (List.elem_iff.mpr (List.mem_map_of_mem _ h)) hrnd
    have hlo : laOrder r d := hrel r hrkeep d hd
    rw [hed]
    exact hlo

/-- C6: creating a session for a user who already holds the cap first
evicts the least-recently-active session down to cap − 1 and then inserts,
so exactly cap sessions remain for that user, and every retained session
(other than the new one) has a last_activity at least that of every evicted
session. -/
theorem c6_session_cap_enforced (userId newId newTok : String) (now : Nat)
    (ip dev : Option String) (store : List SessionRec)
    (hcount : (store.filter (fun s => s.user_id = userId)).length =
      MAX_SESSIONS_PER_USER)
    (hnodup : (store.map (fun s => s.token)).Nodup) :
    ((createSession userId newId newTok now ip dev store).filter
        (fun s => s.user_id = userId)).length = MAX_SESSIONS_PER_USER ∧
    (∀ e ∈ store, e.user_id = userId →
      e ∉ createSession userId newId newTok now ip dev store →
      ∀ r ∈ createSession userId newId newTok now ip dev store,
        r.user_id = userId → r.token ≠ newTok →
        e.last_activity ≤ r.last_activity) := by
  have hperm := List.perm_insertionSort laOrder
    (store.filter (fun s => s.user_id = userId))
  have hsorted : List.Pairwise laOrder (List.insertionSort laOrder
      (store.filter (fun s => s.user_id = userId))) :=
    List.sorted_insertionSort laOrder _
  have hlenS : (List.insertionSort laOrder
      (store.filter (fun s => s.user_id = userId))).length =
      MAX_SESSIONS_PER_USER := hperm.length_eq.trans hcount
  have hover : MAX_SESSIONS_PER_USER - 1 < (List.insertionSort laOrder
      (store.filter (fun s => s.user_id = userId))).length := by
    rw [hlenS]
    decide
  obtain ⟨hcore_a, hcore_b⟩ := cap_core userId store
    (List.insertionSort laOrder (store.filter (fun s => s.user_id = userId)))
    (MAX_SESSIONS_PER_USER - 1) hperm hsorted hnodup hover
  have hlim : limitUserSessions userId (MAX_SESSIONS_PER_USER - 1) store =
      store.filter (fun s =>
        ¬ (((List.insertionSort laOrder
            (store.filter (fun s => s.user_id = userId))).drop
              (MAX_SESSIONS_PER_USER - 1)).map (fun x => x.token)).contains
          s.token) := by
    simp only [limitUserSessions]
    rw [if_pos hover]
  have hcs : createSession userId newId newTok now ip dev store =
      store.filter (fun s =>
        ¬ (((List.insertionSort laOrder
            (store.filter (fun s => s.user_id = userId))).drop
              (MAX_SESSIONS_PER_USER - 1)).map (fun x => x.token)).contains
          s.token) ++
        [{ id := newId, user_id := userId, token := newTok,
           expires_at := calculateSessionExpiry now, created_at := now,
           ip_address := ip, device_info := dev,
           last_activity := now, fresh := false }] := by
    unfold createSession
    rw [hlim]
  constructor
  · rw [hcs, List.filter_append, List.length_append, hcore_a]
    simp [MAX_SESSIONS_PER_USER]
  · intro e he heuser henotin r hr hruser hrtok
    rw [hcs] at henotin hr
    have hecont : (((List.insertionSort laOrder
        (store.filter (fun s => s.user_id = userId))).drop
          (MAX_SESSIONS_PER_USER - 1)).map (fun x => x.token)).contains
        e.token = true := by
      by_contra hc
      apply henotin
      apply List.mem_append_left
      rw [List.mem_filter]
      exact ⟨he, decide_eq_true hc⟩
    have hrfil : r ∈ store.filter (fun s =>
        ¬ (((List.insertionSort laOrder
            (store.filter (fun s => s.user_id = userId))).drop
              (MAX_SESSIONS_PER_USER - 1)).map (fun x => x.token)).contains
          s.token) := by
      rcases List.mem_append.mp hr with h | h
      · exact h
      · exfalso
        have hre : r = { id := newId, user_id := userId, token := newTok,
                         expires_at := calculateSessionExpiry now,
                         created_at := now, ip_address := ip,
                         device_info := dev, last_activity := now,
                         fresh := false } := by
          simpa using h
        exact hrtok (by rw [hre])
    exact hcore_b e he heuser hecont r hrfil hruser

/-- A user at the cap: five sessions with distinct tokens and activity. -/
def c6store : List SessionRec :=
  [{ id := ("s1"), user_id := ("u1"), token := ("t1"), expires_at := 900,
     created_at := 1, ip_address := none, device_info := none,
     last_activity := 1, fresh := false },
   { id := ("s2"), user_id := ("u1"), token := ("t2"), expires_at := 900,
     created_at := 2, ip_address := none, device_info := none,
     last_activity := 2, fresh := false },
   { id := ("s3"), user_id := ("u1"), token := ("t3"), expires_at := 900,
     created_at := 3, ip_address := none, device_info := none,
     last_activity := 3, fresh := false },
   { id := ("s4"), user_id := ("u1"), token := ("t4"), expires_at := 900,
     created_at := 4, ip_address := none, device_info := none,
     last_activity := 4, fresh := false },
   { id := ("s5"), user_id := ("u1"), token := ("t5"), expires_at := 900,
     created_at := 5, ip_address := none, device_info := none,
     last_activity := 5, fresh := false }]

/-- C6 witness: creating a sixth session at the cap of five. -/
theorem c6_session_cap_enforced_witness :
    ((createSession ("u1") ("s6") ("t6") 100 none none c6store).filter
        (fun s => s.user_id = ("u1"))).length = MAX_SESSIONS_PER_USER ∧
    (∀ e ∈ c6store, e.user_id = ("u1") →
      e ∉ createSession ("u1") ("s6") ("t6") 100 none none c6store →
      ∀ r ∈ createSession ("u1") ("s6") ("t6") 100 none none c6store,
        r.user_id = ("u1") → r.token ≠ ("t6") →
        e.last_activity ≤ r.last_activity) :=
  c6_session_cap_enforced ("u1") ("s6") ("t6") 100 none none c6store
    (by decide) (by decide)
